import Mathlib

/-!
Verification of the exercise-log import/statistics/stratification tools
(`tools.py`) against their specification.

The Python code manipulates pandas DataFrames.  We embed it shallowly:

* a calendar date (and a timestamp, whose sub-day part the code never
  inspects: only `.dt.year` / `.dt.month` / `.dt.day` are used) is a `YMD`;
* a raw spreadsheet cell is `Option RawVal`: `none` is an absent (NaN)
  cell; a present cell is classified by how pandas coercions treat it
  (`dateV` parses as a datetime, `intV` casts to int, `strV` does neither);
* a raw table is its column-name list plus a list of rows over the five
  modelled columns (cells of extraneous columns are not modelled: the
  cleaning code never reads them);
* fallible steps return `Except Err`, one constructor per `raise` site;
  `warnings.warn` (a non-aborting effect) is tracked by a separate
  Boolean function.
-/

/-- A calendar date: what remains of a pandas Timestamp once only
`year`/`month`/`day` are observed. -/
structure YMD where
  year : Nat
  month : Nat
  day : Nat
deriving DecidableEq, Repr

/-- A present raw cell, classified by its behaviour under the two coercions
the cleaning code applies: `pd.to_datetime` and `astype(int)`.  A cell
that pandas can parse as a datetime is `dateV d`; one that casts to an
integer is `intV n`; any other text is `strV s`. -/
inductive RawVal where
  | dateV (d : YMD)
  | intV (n : Int)
  | strV (s : String)
deriving DecidableEq, Repr

/-- One raw spreadsheet row over the five required columns; `none` models
an absent (NaN) cell. -/
structure RawRow where
  date : Option RawVal
  time : Option RawVal
  location : Option RawVal
  exercise : Option RawVal
  count : Option RawVal
deriving DecidableEq, Repr

/-- A raw table: the header (column names, possibly missing required ones
or carrying extraneous ones) and the data rows. -/
structure Table where
  cols : List String
  rows : List RawRow
deriving DecidableEq, Repr

/-- A row after `clean_exercise_sheet`: `date` was run through
`pd.to_datetime`, which turns an absent cell into NaT (still absent);
`time` likewise (but its non-emptiness was checked first); `location` and
`exercise` are never cast and may still be absent; `count` was cast to
int after its non-emptiness was checked. -/
structure CleanRow where
  date : Option YMD
  time : Option YMD
  location : Option RawVal
  exercise : Option RawVal
  count : Int
deriving DecidableEq, Repr

/-- The DataFrame returned by `clean_exercise_sheet`. -/
structure CleanTable where
  cols : List String
  rows : List CleanRow
deriving DecidableEq, Repr

/-- One constructor per `raise` site of the embedded code. -/
inductive Err where
  | schemaError (missing : List String)
  | incompleteData (col : String)
  | parseError (col : String)
  | castError
  | multipleMonths
  | exerciseNotFound (ex : String)
  | maxOfEmpty
  | nanMonth
  | indexError
  | monthMismatch
  | zeroDivision
deriving DecidableEq, Repr

/-- The five required column names (`check_columns_existence`). -/
def requiredCols : List String := ["date", "time", "location", "exercise", "count"]

/-- Computes `col_names_req - col_names`: the required columns absent from the header. -/
def missingCols (cols : List String) : List String :=
  requiredCols.filter (fun c => !cols.contains c)

/-- Computes `col_names - col_names_req`: header names outside the required five. -/
def extraneousCols (cols : List String) : List String :=
  cols.filter (fun c => !requiredCols.contains c)

/-- The function `check_columns_existence` issues `warnings.warn` iff some extraneous
column is present.  The warning does not abort, so it is modelled apart
from the error result. -/
def warnsExtraneous (cols : List String) : Bool :=
  !(extraneousCols cols).isEmpty

/-- Embeds `check_columns_existence`: raises iff a required column is missing. -/
def checkColumnsExistence (cols : List String) : Except Err Unit :=
  if missingCols cols ≠ [] then .error (.schemaError (missingCols cols)) else .ok ()

/-- One step of pandas `ffill` state: a present cell replaces the carried
value, an absent cell inherits it. -/
def ffillStep (prev : Option RawVal) (cell : Option RawVal) : Option RawVal :=
  match cell with
  | some v => some v
  | none => prev

/-- Embeds `df[["date","location","exercise"]].ffill()`: forward-fill the three
columns top-to-bottom, carrying the last present value of each. -/
def ffill3 (pd pl pe : Option RawVal) : List RawRow → List RawRow
  | [] => []
  | r :: rs =>
    { r with
      date := ffillStep pd r.date
      location := ffillStep pl r.location
      exercise := ffillStep pe r.exercise } ::
      ffill3 (ffillStep pd r.date) (ffillStep pl r.location) (ffillStep pe r.exercise) rs

/-- Forward-fill starting from no carried values (nothing precedes the
first row). -/
def ffillRows (rows : List RawRow) : List RawRow := ffill3 none none none rows

/-- Which present cells `pd.to_datetime` parses. -/
def parseDatetime : RawVal → Option YMD
  | .dateV d => some d
  | _ => none

/-- Which present cells `astype(int)` accepts. -/
def castIntVal : RawVal → Option Int
  | .intV n => some n
  | _ => none

/-- Map a fallible cast over a list, failing the whole list if any element
fails (a whole-column cast either succeeds or raises). -/
def optionMapList (f : α → Option β) : List α → Option (List β)
  | [] => some []
  | a :: l =>
    match f a, optionMapList f l with
    | some b, some bs => some (b :: bs)
    | _, _ => none

/-- Embeds `pd.to_datetime(df[col])`: an absent cell becomes NaT (absent but not
an error); an unparseable present cell makes the whole cast raise. -/
def castDatetimeColumn (cells : List (Option RawVal)) : Option (List (Option YMD)) :=
  optionMapList (fun c =>
    match c with
    | none => some none
    | some v => (parseDatetime v).map some) cells

/-- Embeds `df["count"].astype(int)`: an absent or non-integer cell makes the
cast raise (absence was already excluded by an earlier check). -/
def castCountColumn (cells : List (Option RawVal)) : Option (List Int) :=
  optionMapList (fun c => c.bind castIntVal) cells

/-- Reassemble the cleaned rows from the forward-filled raw rows and the
three cast columns (the lists have equal length whenever this is
reached). -/
def buildCleanRows : List RawRow → List (Option YMD) → List (Option YMD) → List Int →
    List CleanRow
  | r :: rs, d :: ds, t :: ts, c :: cs =>
    ⟨d, t, r.location, r.exercise, c⟩ :: buildCleanRows rs ds ts cs
  | _, _, _, _ => []

/-- Embeds `clean_exercise_sheet`: column check, `time`/`count` non-emptiness,
forward-fill of `date`/`location`/`exercise`, datetime casts of
`date`/`time`, int cast of `count`. -/
def cleanExerciseSheet (t : Table) : Except Err CleanTable :=
  match checkColumnsExistence t.cols with
  | .error e => .error e
  | .ok _ =>
    if t.rows.any (fun r => r.time.isNone) then .error (.incompleteData ("time"))
    else if t.rows.any (fun r => r.count.isNone) then .error (.incompleteData ("count"))
    else
      let rows1 := ffillRows t.rows
      match castDatetimeColumn (rows1.map (fun r => r.date)) with
      | none => .error (.parseError ("date"))
      | some ds =>
        match castDatetimeColumn (rows1.map (fun r => r.time)) with
        | none => .error (.parseError ("time"))
        | some ts =>
          match castCountColumn (rows1.map (fun r => r.count)) with
          | none => .error .castError
          | some cs => .ok ⟨t.cols, buildCleanRows rows1 ds ts cs⟩

/-- True when execution of `clean_exercise_sheet` reaches the forward-fill
assignment: the column check and both non-emptiness checks passed. -/
def reachesFfill (t : Table) : Bool :=
  (missingCols t.cols).isEmpty
    && !(t.rows.any (fun r => r.time.isNone))
    && !(t.rows.any (fun r => r.count.isNone))

/-- The caller-visible state of the DataFrame object right after
`df[cols_to_ffill] = df[cols_to_ffill].ffill()`: this `__setitem__` writes
into the very object the caller passed, so the caller's table now holds
the forward-filled rows.  `none` when execution raised before that line. -/
def cleanSheetState1 (t : Table) : Option Table :=
  if reachesFfill t then some { t with rows := ffillRows t.rows } else none

/-- First-occurrence-order deduplication (what pandas `.unique()` returns),
with the already-seen values as accumulator. -/
def uniqueAux [DecidableEq α] (seen : List α) : List α → List α
  | [] => []
  | a :: l => if a ∈ seen then uniqueAux seen l else a :: uniqueAux (a :: seen) l

/-- pandas `Series.unique()`: distinct values in first-occurrence order. -/
def uniqueList [DecidableEq α] (l : List α) : List α := uniqueAux [] l

/-- A row is dropped by `dropna(axis=0, how="all")` when every cell is
absent. -/
def rowAllAbsent (r : RawRow) : Bool :=
  r.date.isNone && r.time.isNone && r.location.isNone && r.exercise.isNone && r.count.isNone

/-- The cell of a (required) named column in a raw row. -/
def getCell (r : RawRow) : String → Option RawVal
  | "date" => r.date
  | "time" => r.time
  | "location" => r.location
  | "exercise" => r.exercise
  | "count" => r.count
  | _ => none

/-- Embeds `import_exercise_sheet` after the file/sheet lookup (an external
collaborator, not modelled): drop all-absent rows, then drop columns with
no present cell in the remaining rows (`dropna` with `how="all"` on both
axes, in that order), then clean. -/
def importExerciseSheet (t : Table) : Except Err CleanTable :=
  let rows1 := t.rows.filter (fun r => !rowAllAbsent r)
  let cols1 := t.cols.filter (fun c => rows1.any (fun r => (getCell r c).isSome))
  cleanExerciseSheet ⟨cols1, rows1⟩

/-- One `import_month` consistency loop body: `vals = df[col].dt.X.unique()`,
then `if (len(vals) > 1) or (vals[0] != expected): raise`.  `vals[0]` on an
empty array raises an IndexError; a NaN entry (year/month of NaT) is
`none` and never equals the expected number. -/
def checkYMCol (vals : List (Option Nat)) (expected : Nat) : Except Err Unit :=
  match uniqueList vals with
  | [] => .error .indexError
  | v :: rest => if rest ≠ [] ∨ v ≠ some expected then .error .monthMismatch else .ok ()

/-- The year/month consistency checks of `import_month`, in source order:
years of `date`, years of `time`, months of `date`, months of `time`. -/
def checkMonth (rows : List CleanRow) (year month : Nat) : Except Err Unit :=
  match checkYMCol (rows.map (fun r => r.date.map YMD.year)) year with
  | .error e => .error e
  | .ok _ =>
    match checkYMCol (rows.map (fun r => r.time.map YMD.year)) year with
    | .error e => .error e
    | .ok _ =>
      match checkYMCol (rows.map (fun r => r.date.map YMD.month)) month with
      | .error e => .error e
      | .ok _ => checkYMCol (rows.map (fun r => r.time.map YMD.month)) month

/-- Embeds `import_month` after the sheet-name resolution (external): import and
clean the sheet, then require every record's `date` and `time` to lie in
the requested year and month. -/
def importMonth (t : Table) (year month : Nat) : Except Err CleanTable :=
  match importExerciseSheet t with
  | .error e => .error e
  | .ok ct =>
    match checkMonth ct.rows year month with
    | .error e => .error e
    | .ok _ => .ok ct

/-- A normalized record lies in the requested year and month: both its
`date` and its `time` carry exactly that year and that month (what the
`import_month` checks enforce record-wise). -/
def recordInMonth (r : CleanRow) (year month : Nat) : Prop :=
  r.date.map YMD.year = some year ∧ r.date.map YMD.month = some month ∧
    r.time.map YMD.year = some year ∧ r.time.map YMD.month = some month

instance (r : CleanRow) (y m : Nat) : Decidable (recordInMonth r y m) := by
  unfold recordInMonth; infer_instance

/-- Gregorian leap year (`calendar.isleap`). -/
def isLeapYear (y : Nat) : Bool :=
  (y % 4 == 0 && y % 100 != 0) || (y % 400 == 0)

/-- Embeds `calendar.monthrange(y, m)[1]`: the number of days of the month. -/
def daysInMonth (y m : Nat) : Nat :=
  if m = 2 then (if isLeapYear y then 29 else 28)
  else if m = 4 ∨ m = 6 ∨ m = 9 ∨ m = 11 then 30 else 31

/-- Sort order used on each day's group: by `count`, descending
(`sort_values(by="count", ascending=False)` at line 645). -/
def countDesc (a b : CleanRow) : Prop := b.count ≤ a.count

instance : DecidableRel countDesc := fun a b => Int.decLe b.count a.count

instance : IsTotal CleanRow countDesc :=
  ⟨fun a b => Int.le_total b.count a.count⟩

instance : IsTrans CleanRow countDesc :=
  ⟨fun _ _ _ hab hbc => Int.le_trans hbc hab⟩

/-- Line 645: sort one day's group of records by reps per set,
descending.  The code guarantees only a `count`-descending reordering of
the group: it uses numpy's default quicksort argsort (through pandas'
double-reversal `nargsort`), whose order on equal counts is an
implementation detail — an insertion-sort fallback makes it stable below
16 elements, larger groups have no guaranteed tie order.  Insertion sort
under `countDesc` is used here as one concrete such reordering; no
theorem in this file depends on the tie order it induces. -/
def sortValuesCountDesc (l : List CleanRow) : List CleanRow :=
  List.insertionSort countDesc l

/-- Line 620: the rows of the requested exercise. -/
def filteredFor (rows : List CleanRow) (ex : String) : List CleanRow :=
  rows.filter (fun r => decide (r.exercise = some (RawVal.strV ex)))

/-- The group `per_day_dict[key]` after the sorting loop: the filtered rows of one
calendar day (`groupby("date")` keeps input order inside a group and
drops NaT keys; `strftime` keys are in bijection with the dates), sorted
by count descending. -/
def groupFor (filtered : List CleanRow) (key : YMD) : List CleanRow :=
  sortValuesCountDesc (filtered.filter (fun r => decide (r.date = some key)))

/-- Lines 675-690, one series cell: the (n+1)-th set done on the day, or a
zero fill-in when the day's group has no index `n` (the `KeyError` of
`.loc[[n]]` or of a day absent from the dict).  The row's `date` equals
the group key by construction, so the emitted pair carries the key. -/
def seriesEntry (filtered : List CleanRow) (key : YMD) (n : Nat) : YMD × Int :=
  let g := groupFor filtered key
  if h : n < g.length then (key, (g.get ⟨n, h⟩).count) else (key, 0)

/-- Lines 660-665: `day_range` is the wall-clock day of month when the
data's month is the current month, and the full month length otherwise. -/
def dayRangeFor (year month : Nat) (today : YMD) : Nat :=
  if month = today.month ∧ year = today.year then today.day else daysInMonth year month

/-- The stratification stage once the single-month check has produced the
unique year and month values of the `date` column (`years_contained[0]`,
`months_contained[0]`, possibly NaN for an all-NaT column): exercise
presence check, filter, per-day grouping, `n_sets_max` (`max` of an empty
sequence raises), `day_range`, and the `n_sets_max × day_range` series
grid.  The NaN year/month branch is unreachable when the dict is
nonempty; there `calendar.monthrange` would raise on a NaN argument. -/
def stratifyGo (rows : List CleanRow) (ex : String) (today : YMD)
    (yOpt mOpt : Option Nat) : Except Err (List (List (YMD × Int))) :=
  if some (RawVal.strV ex) ∈ uniqueList (rows.map (fun r => r.exercise)) then
    let filtered := filteredFor rows ex
    let dictKeys := uniqueList (filtered.filterMap (fun r => r.date))
    match dictKeys.map (fun d => (groupFor filtered d).length) with
    | [] => .error .maxOfEmpty
    | n0 :: ns =>
      let nSetsMax := ns.foldl Nat.max n0
      match yOpt, mOpt with
      | some y, some m =>
        let dayRange := dayRangeFor y m today
        .ok ((List.range nSetsMax).map (fun n =>
          (List.range' 1 dayRange).map (fun d => seriesEntry filtered ⟨y, m, d⟩ n)))
      | _, _ => .error .nanMonth
  else .error (.exerciseNotFound ex)

/-- Embeds `stratify_exercise_month` on already-cleaned rows (the function first
re-runs `clean_exercise_sheet`; see `stratifyExerciseMonth`): require a
single year and a single month in the `date` column, then stratify. -/
def stratifyCore (rows : List CleanRow) (ex : String) (today : YMD) :
    Except Err (List (List (YMD × Int))) :=
  match uniqueList (rows.map (fun r => r.date.map YMD.year)),
        uniqueList (rows.map (fun r => r.date.map YMD.month)) with
  | [yOpt], [mOpt] => stratifyGo rows ex today yOpt mOpt
  | _, _ => .error .multipleMonths

/-- Embeds `stratify_exercise_month`: clean the given DataFrame, then stratify.
`today` is the value of `date.today()` when the call runs (the code reads
the wall clock at lines 662-663). -/
def stratifyExerciseMonth (t : Table) (ex : String) (today : YMD) :
    Except Err (List (List (YMD × Int))) :=
  match cleanExerciseSheet t with
  | .error e => .error e
  | .ok ct => stratifyCore ct.rows ex today

/-- Embeds `df_subset["count"].sum()`: total reps of the exercise this month. -/
def sumMonthFor (rows : List CleanRow) (ex : String) : Int :=
  ((filteredFor rows ex).map CleanRow.count).sum

/-- Total reps of the exercise on the given day of month
(`df_subset[df_subset["date"].dt.day == day]["count"].sum()`; the day of
NaT is NaN and never equals `day`). -/
def sumDayFor (rows : List CleanRow) (ex : String) (day : Nat) : Int :=
  (((filteredFor rows ex).filter (fun r => decide (r.date.map YMD.day = some day))).map
    CleanRow.count).sum

/-- Embeds `exercise_projection`: import the current month (`today` is the value
of `date.today()`), require the exercise, and compute the two
per-remaining-day paces, morning first; the divisions are Python float
divisions, modelled exactly over `ℚ`, and the end-of-day denominator is
zero on the last day of the month, where Python raises
`ZeroDivisionError`.  Returns (pace as of this morning, pace assuming no
more reps today). -/
def exerciseProjection (t : Table) (ex : String) (goalTotal : Int) (today : YMD) :
    Except Err (ℚ × ℚ) :=
  match importMonth t today.year today.month with
  | .error e => .error e
  | .ok df =>
    if some (RawVal.strV ex) ∈ uniqueList (df.rows.map (fun r => r.exercise)) then
      let sumMonth := sumMonthFor df.rows ex
      let sumDay := sumDayFor df.rows ex today.day
      let dim : Int := (daysInMonth today.year today.month : Int)
      if dim - (today.day : Int) = 0 then .error .zeroDivision
      else
        .ok (((goalTotal - (sumMonth - sumDay) : Int) : ℚ) / ((dim - ((today.day : Int) - 1) : Int) : ℚ),
             ((goalTotal - sumMonth : Int) : ℚ) / ((dim - (today.day : Int) : Int) : ℚ))
    else .error (.exerciseNotFound ex)

/-- Pace (b) of the specification, written from its words: "assuming today
has not yet contributed — divide goalTotal - (monthTotalSoFar - todayTotal)
by daysInMonth - (currentDay - 1)". -/
def paceAsOfMorning (goalTotal monthTotal todayTotal : Int) (dim currentDay : Nat) : ℚ :=
  ((goalTotal - (monthTotal - todayTotal) : Int) : ℚ) /
    (((dim : Int) - ((currentDay : Int) - 1) : Int) : ℚ)

/-- Pace (a) of the specification, written from its words: "assuming no
further reps are logged today — divide goalTotal - monthTotalSoFar by
daysInMonth - currentDay". -/
def paceNoMoreToday (goalTotal monthTotal : Int) (dim currentDay : Nat) : ℚ :=
  ((goalTotal - monthTotal : Int) : ℚ) / (((dim : Int) - (currentDay : Int) : Int) : ℚ)

/-- Decides whether forward-fill is a no-op from the given carried values:
no absent `date`/`location`/`exercise` cell has a present value carried
into it. -/
def noFillGapRows : Option RawVal → Option RawVal → Option RawVal → List RawRow → Bool
  | _, _, _, [] => true
  | pd, pl, pe, r :: rs =>
    (r.date.isSome || pd.isNone) && (r.location.isSome || pl.isNone)
      && (r.exercise.isSome || pe.isNone)
      && noFillGapRows (ffillStep pd r.date) (ffillStep pl r.location)
          (ffillStep pe r.exercise) rs

/-- Reads a stratified series at a (1-based) day index: the count stored
at that day, 0 if the index is out of range. -/
def seriesValueAt (s : List (YMD × Int)) (d : Nat) : Int :=
  ((s.get? (d - 1)).map Prod.snd).getD 0

/-- Written from the specification: the total count logged for the
exercise on the given day (sum of `count` over the records of that
exercise carrying that date). -/
def dayTotal (rows : List CleanRow) (ex : String) (key : YMD) : Int :=
  ((rows.filter (fun r =>
      decide (r.date = some key) && decide (r.exercise = some (RawVal.strV ex)))).map
    CleanRow.count).sum

/-- Cleaned records for the end-to-end example of the specification:
exercise pushups, day 1 sets (10, 8, 12) in input order, day 2 set (5). -/
def c1wrows : List CleanRow :=
  [⟨some ⟨2024, 11, 1⟩, some ⟨2024, 11, 1⟩, some (RawVal.strV ("home")),
      some (RawVal.strV ("pushups")), 10⟩,
   ⟨some ⟨2024, 11, 1⟩, some ⟨2024, 11, 1⟩, some (RawVal.strV ("home")),
      some (RawVal.strV ("pushups")), 8⟩,
   ⟨some ⟨2024, 11, 1⟩, some ⟨2024, 11, 1⟩, some (RawVal.strV ("home")),
      some (RawVal.strV ("pushups")), 12⟩,
   ⟨some ⟨2024, 11, 2⟩, some ⟨2024, 11, 2⟩, some (RawVal.strV ("home")),
      some (RawVal.strV ("pushups")), 5⟩]

/-- The stratifier's output on `c1wrows` with the wall clock at
2024-11-02. -/
def c1wout : List (List (YMD × Int)) :=
  [[(⟨2024, 11, 1⟩, 12), (⟨2024, 11, 2⟩, 5)],
   [(⟨2024, 11, 1⟩, 10), (⟨2024, 11, 2⟩, 0)],
   [(⟨2024, 11, 1⟩, 8), (⟨2024, 11, 2⟩, 0)]]

/-- Raw table for the end-to-end example: pushups logged as 3 sets of
(10, 8, 12) on 2024-11-01 and 1 set of (5) on 2024-11-02. -/
def c2table : Table :=
  ⟨requiredCols,
   [⟨some (RawVal.dateV ⟨2024, 11, 1⟩), some (RawVal.dateV ⟨2024, 11, 1⟩),
       some (RawVal.strV ("home")), some (RawVal.strV ("pushups")), some (RawVal.intV 10)⟩,
    ⟨some (RawVal.dateV ⟨2024, 11, 1⟩), some (RawVal.dateV ⟨2024, 11, 1⟩),
       some (RawVal.strV ("home")), some (RawVal.strV ("pushups")), some (RawVal.intV 8)⟩,
    ⟨some (RawVal.dateV ⟨2024, 11, 1⟩), some (RawVal.dateV ⟨2024, 11, 1⟩),
       some (RawVal.strV ("home")), some (RawVal.strV ("pushups")), some (RawVal.intV 12)⟩,
    ⟨some (RawVal.dateV ⟨2024, 11, 2⟩), some (RawVal.dateV ⟨2024, 11, 2⟩),
       some (RawVal.strV ("home")), some (RawVal.strV ("pushups")), some (RawVal.intV 5)⟩]⟩

/-- Cleaned records containing one record whose `time` month (December)
deviates from the requested month (November). -/
def c4rows : List CleanRow :=
  [⟨some ⟨2024, 11, 3⟩, some ⟨2024, 11, 3⟩, some (RawVal.strV ("home")),
      some (RawVal.strV ("situps")), 12⟩,
   ⟨some ⟨2024, 11, 7⟩, some ⟨2024, 12, 7⟩, some (RawVal.strV ("home")),
      some (RawVal.strV ("situps")), 15⟩]

/-- Raw table realizing the projection example: 90 pushups on 2024-11-01
and 10 pushups on 2024-11-10, so that with the wall clock at 2024-11-10
the month total so far is 100 and today's total is 10. -/
def c6table : Table :=
  ⟨requiredCols,
   [⟨some (RawVal.dateV ⟨2024, 11, 1⟩), some (RawVal.dateV ⟨2024, 11, 1⟩),
       some (RawVal.strV ("home")), some (RawVal.strV ("pushups")), some (RawVal.intV 90)⟩,
    ⟨some (RawVal.dateV ⟨2024, 11, 10⟩), some (RawVal.dateV ⟨2024, 11, 10⟩),
       some (RawVal.strV ("home")), some (RawVal.strV ("pushups")), some (RawVal.intV 10)⟩]⟩

/-- The cleaned table `import_month` produces from `c6table`. -/
def c6clean : CleanTable :=
  ⟨requiredCols,
   [⟨some ⟨2024, 11, 1⟩, some ⟨2024, 11, 1⟩, some (RawVal.strV ("home")),
       some (RawVal.strV ("pushups")), 90⟩,
    ⟨some ⟨2024, 11, 10⟩, some ⟨2024, 11, 10⟩, some (RawVal.strV ("home")),
       some (RawVal.strV ("pushups")), 10⟩]⟩

/-- Raw table whose second row has absent `date`, `location` and
`exercise` cells below present ones, so forward-fill changes it. -/
def c7table : Table :=
  ⟨requiredCols,
   [⟨some (RawVal.dateV ⟨2024, 11, 1⟩), some (RawVal.dateV ⟨2024, 11, 1⟩),
       some (RawVal.strV ("home")), some (RawVal.strV ("situps")), some (RawVal.intV 30)⟩,
    ⟨none, some (RawVal.dateV ⟨2024, 11, 2⟩), none, none, some (RawVal.intV 20)⟩]⟩

/-- The caller's table object after `clean_exercise_sheet(c7table)` has
executed its forward-fill assignment: row 2 now holds row 1's `date`,
`location` and `exercise`. -/
def c7mutated : Table :=
  ⟨requiredCols,
   [⟨some (RawVal.dateV ⟨2024, 11, 1⟩), some (RawVal.dateV ⟨2024, 11, 1⟩),
       some (RawVal.strV ("home")), some (RawVal.strV ("situps")), some (RawVal.intV 30)⟩,
    ⟨some (RawVal.dateV ⟨2024, 11, 1⟩), some (RawVal.dateV ⟨2024, 11, 2⟩),
       some (RawVal.strV ("home")), some (RawVal.strV ("situps")), some (RawVal.intV 20)⟩]⟩

/-- Raw table with a single squats record on 2024-11-01. -/
def c8table : Table :=
  ⟨requiredCols,
   [⟨some (RawVal.dateV ⟨2024, 11, 1⟩), some (RawVal.dateV ⟨2024, 11, 1⟩),
       some (RawVal.strV ("gym")), some (RawVal.strV ("squats")), some (RawVal.intV 20)⟩]⟩

/-- Cleaned version of the single squats record. -/
def c8wrows : List CleanRow :=
  [⟨some ⟨2024, 11, 1⟩, some ⟨2024, 11, 1⟩, some (RawVal.strV ("gym")),
      some (RawVal.strV ("squats")), 20⟩]

/-- First raw row of `t9`: its `date` cell is absent, and no row precedes
it to fill from. -/
def t9row0 : RawRow :=
  ⟨none, some (RawVal.dateV ⟨2024, 11, 1⟩), some (RawVal.strV ("home")),
    some (RawVal.strV ("situps")), some (RawVal.intV 30)⟩

/-- Second raw row of `t9`, fully present. -/
def t9row1 : RawRow :=
  ⟨some (RawVal.dateV ⟨2024, 11, 2⟩), some (RawVal.dateV ⟨2024, 11, 2⟩),
    some (RawVal.strV ("home")), some (RawVal.strV ("situps")), some (RawVal.intV 20)⟩

/-- Raw table whose first row has an absent `date`. -/
def t9 : Table := ⟨requiredCols, [t9row0, t9row1]⟩

/-- First cleaned row of `t9`: the absent `date` survives cleaning as NaT. -/
def ct9row0 : CleanRow :=
  ⟨none, some ⟨2024, 11, 1⟩, some (RawVal.strV ("home")), some (RawVal.strV ("situps")), 30⟩

/-- Second cleaned row of `t9`. -/
def ct9row1 : CleanRow :=
  ⟨some ⟨2024, 11, 2⟩, some ⟨2024, 11, 2⟩, some (RawVal.strV ("home")),
    some (RawVal.strV ("situps")), 20⟩

/-- The record set `clean_exercise_sheet` returns on `t9`. -/
def ct9 : CleanTable := ⟨requiredCols, [ct9row0, ct9row1]⟩

/-- Raw table whose data rows are entirely empty. -/
def t10 : Table :=
  ⟨requiredCols, [⟨none, none, none, none, none⟩, ⟨none, none, none, none, none⟩]⟩

/-! ### Basic lemmas about the helper functions -/

theorem mem_uniqueAux [DecidableEq α] (a : α) :
    ∀ (l seen : List α), a ∈ uniqueAux seen l ↔ a ∈ l ∧ a ∉ seen
  | [], seen => by simp [uniqueAux]
  | b :: l, seen => by
    by_cases hb : b ∈ seen
    · rw [uniqueAux, if_pos hb, mem_uniqueAux a l seen]
      constructor
      · exact fun h => ⟨List.mem_cons_of_mem b h.1, h.2⟩
      · rintro ⟨hm, hs⟩
        rcases List.mem_cons.mp hm with rfl | hm
        · exact absurd hb hs
        · exact ⟨hm, hs⟩
    · rw [uniqueAux, if_neg hb]
      simp only [List.mem_cons, mem_uniqueAux a l (b :: seen)]
      constructor
      · rintro (rfl | ⟨hm, hs⟩)
        · exact ⟨Or.inl rfl, hb⟩
        · refine ⟨Or.inr hm, fun hsa => hs (Or.inr hsa)⟩
      · rintro ⟨rfl | hm, hs⟩
        · exact Or.inl rfl
        · by_cases hab : a = b
          · exact Or.inl hab
          · exact Or.inr ⟨hm, fun hc => hc.elim hab hs⟩

theorem mem_uniqueList [DecidableEq α] (a : α) (l : List α) :
    a ∈ uniqueList l ↔ a ∈ l := by
  simp [uniqueList, mem_uniqueAux]

theorem uniqueAux_eq_nil [DecidableEq α] :
    ∀ (l seen : List α), (∀ x ∈ l, x ∈ seen) → uniqueAux seen l = []
  | [], _, _ => rfl
  | b :: l, seen, h => by
    rw [uniqueAux, if_pos (h b (List.mem_cons_self b l))]
    exact uniqueAux_eq_nil l seen fun x hx => h x (List.mem_cons_of_mem b hx)

theorem uniqueList_const [DecidableEq α] (c : α) :
    ∀ (l : List α), l ≠ [] → (∀ x ∈ l, x = c) → uniqueList l = [c]
  | [], h, _ => absurd rfl h
  | b :: l, _, hc => by
    have hb : b = c := hc b (List.mem_cons_self b l)
    subst hb
    rw [uniqueList, uniqueAux, if_neg (List.not_mem_nil b)]
    rw [uniqueAux_eq_nil l [b] fun x hx =>
      List.mem_singleton.mpr ((hc x (List.mem_cons_of_mem b hx)).trans rfl)]

theorem uniqueList_eq_nil_iff [DecidableEq α] (l : List α) :
    uniqueList l = [] ↔ l = [] := by
  cases l with
  | nil => simp [uniqueList, uniqueAux]
  | cons b l => simp [uniqueList, uniqueAux]

theorem optionMapList_length (f : α → Option β) :
    ∀ (l : List α) (bs : List β), optionMapList f l = some bs → bs.length = l.length
  | [], bs, h => by
    simp only [optionMapList, Option.some.injEq] at h
    subst h
    rfl
  | a :: l, bs, h => by
    simp only [optionMapList] at h
    cases hfa : f a with
    | none => rw [hfa] at h; exact absurd h (by simp)
    | some b =>
      cases hml : optionMapList f l with
      | none => rw [hfa, hml] at h; exact absurd h (by simp)
      | some bs2 =>
        rw [hfa, hml] at h
        simp only [Option.some.injEq] at h
        subst h
        simp [optionMapList_length f l bs2 hml]

theorem optionMapList_cons (f : α → Option β) (a : α) (l : List α) (bs : List β)
    (h : optionMapList f (a :: l) = some bs) :
    ∃ b bs2, bs = b :: bs2 ∧ f a = some b ∧ optionMapList f l = some bs2 := by
  simp only [optionMapList] at h
  cases hfa : f a with
  | none => rw [hfa] at h; exact absurd h (by simp)
  | some b =>
    cases hml : optionMapList f l with
    | none => rw [hfa, hml] at h; exact absurd h (by simp)
    | some bs2 =>
      rw [hfa, hml] at h
      simp only [Option.some.injEq] at h
      exact ⟨b, bs2, h.symm, rfl, rfl⟩

theorem ffill3_length : ∀ (rows : List RawRow) (pd pl pe : Option RawVal),
    (ffill3 pd pl pe rows).length = rows.length
  | [], _, _, _ => rfl
  | r :: rs, pd, pl, pe => by
    simp [ffill3, ffill3_length rs]

theorem buildCleanRows_length :
    ∀ (rs : List RawRow) (ds ts : List (Option YMD)) (cs : List Int),
      ds.length = rs.length → ts.length = rs.length → cs.length = rs.length →
      (buildCleanRows rs ds ts cs).length = rs.length
  | [], _, _, _, _, _, _ => by simp [buildCleanRows]
  | r :: rs, ds, ts, cs, hd, ht, hc => by
    cases ds with
    | nil => simp at hd
    | cons d ds =>
      cases ts with
      | nil => simp at ht
      | cons t ts =>
        cases cs with
        | nil => simp at hc
        | cons c cs =>
          simp only [buildCleanRows, List.length_cons]
          rw [buildCleanRows_length rs ds ts cs (by simpa using hd) (by simpa using ht)
            (by simpa using hc)]

/-! ### The validator: success shape and schema errors -/

theorem cleanExerciseSheet_ok_elim (t : Table) (ct : CleanTable)
    (h : cleanExerciseSheet t = .ok ct) :
    checkColumnsExistence t.cols = .ok () ∧
    ∃ ds ts cs,
      castDatetimeColumn ((ffillRows t.rows).map (fun r => r.date)) = some ds ∧
      castDatetimeColumn ((ffillRows t.rows).map (fun r => r.time)) = some ts ∧
      castCountColumn ((ffillRows t.rows).map (fun r => r.count)) = some cs ∧
      ct = ⟨t.cols, buildCleanRows (ffillRows t.rows) ds ts cs⟩ := by
  simp only [cleanExerciseSheet] at h
  split at h
  · exact absurd h (by simp)
  · rename_i u hcc
    split at h
    · exact absurd h (by simp)
    · split at h
      · exact absurd h (by simp)
      · split at h
        · exact absurd h (by simp)
        · rename_i ds hds
          split at h
          · exact absurd h (by simp)
          · rename_i ts hts
            split at h
            · exact absurd h (by simp)
            · rename_i cs hcs
              obtain ⟨⟩ := u
              exact ⟨hcc, ds, ts, cs, hds, hts, hcs, (Except.ok.inj h).symm⟩

theorem cleanExerciseSheet_ok_length (t : Table) (ct : CleanTable)
    (h : cleanExerciseSheet t = .ok ct) : ct.rows.length = t.rows.length := by
  obtain ⟨-, ds, ts, cs, hds, hts, hcs, rfl⟩ := cleanExerciseSheet_ok_elim t ct h
  have hf : (ffillRows t.rows).length = t.rows.length := ffill3_length t.rows none none none
  have hd2 : ds.length = (ffillRows t.rows).length := by
    have := optionMapList_length _ _ _ hds
    simpa using this
  have ht2 : ts.length = (ffillRows t.rows).length := by
    have := optionMapList_length _ _ _ hts
    simpa using this
  have hc2 : cs.length = (ffillRows t.rows).length := by
    have := optionMapList_length _ _ _ hcs
    simpa using this
  simpa [hf] using buildCleanRows_length (ffillRows t.rows) ds ts cs hd2 ht2 hc2

theorem checkColumnsExistence_ok_iff (cols : List String) :
    checkColumnsExistence cols = .ok () ↔ ∀ c ∈ requiredCols, c ∈ cols := by
  unfold checkColumnsExistence
  by_cases hm : missingCols cols ≠ []
  · rw [if_pos hm]
    constructor
    · intro h
      exact absurd h (by simp)
    · intro hall
      exfalso
      apply hm
      unfold missingCols
      rw [List.filter_eq_nil_iff]
      intro c hc
      simp [hall c hc]
  · rw [if_neg hm]
    rw [not_ne_iff] at hm
    unfold missingCols at hm
    constructor
    · intro _ c hc
      have := List.filter_eq_nil_iff.mp hm c hc
      simpa using this
    · intro _
      rfl

theorem cleanExerciseSheet_schemaError_iff (t : Table) :
    cleanExerciseSheet t = .error (.schemaError (missingCols t.cols)) ↔
      ¬ ∀ c ∈ requiredCols, c ∈ t.cols := by
  constructor
  · intro h hall
    have hok : checkColumnsExistence t.cols = .ok () :=
      (checkColumnsExistence_ok_iff t.cols).mpr hall
    simp only [cleanExerciseSheet, hok] at h
    split at h
    · exact absurd h (by simp)
    · split at h
      · exact absurd h (by simp)
      · split at h
        · exact absurd h (by simp)
        · split at h
          · exact absurd h (by simp)
          · split at h
            · exact absurd h (by simp)
            · exact absurd h (by simp)
  · intro hall
    have hne : missingCols t.cols ≠ [] := by
      intro hnil
      apply hall
      intro c hc
      unfold missingCols at hnil
      have := List.filter_eq_nil_iff.mp hnil c hc
      simpa using this
    have hcc : checkColumnsExistence t.cols = .error (.schemaError (missingCols t.cols)) := by
      unfold checkColumnsExistence
      rw [if_pos hne]
    simp only [cleanExerciseSheet, hcc]

/-- C5: for every raw table, validation fails with a SchemaError exactly
when one of the five required columns is missing from the header; a table
whose required columns are all present passes the column check whatever
extra columns it carries, extra columns only raising the recoverable
extraneous-column warning. -/
theorem c5_schema_error_exactly_on_missing_required :
    ∀ (t : Table),
      (cleanExerciseSheet t = .error (.schemaError (missingCols t.cols)) ↔
        ¬ ∀ c ∈ requiredCols, c ∈ t.cols) ∧
      (checkColumnsExistence t.cols = .ok () ↔ ∀ c ∈ requiredCols, c ∈ t.cols) ∧
      (warnsExtraneous t.cols = true ↔ ∃ c ∈ t.cols, c ∉ requiredCols) := by
  intro t
  refine ⟨cleanExerciseSheet_schemaError_iff t, checkColumnsExistence_ok_iff t.cols, ?_⟩
  simp [warnsExtraneous, extraneousCols]

/-- Witness for C5 at a concrete header carrying all required columns plus
an extraneous one. -/
theorem c5_witness :
    (∀ c ∈ requiredCols, c ∈ ["date", "time", "location", "exercise", "count", "weather"]) ∧
    checkColumnsExistence ["date", "time", "location", "exercise", "count", "weather"] = .ok () ∧
    warnsExtraneous ["date", "time", "location", "exercise", "count", "weather"] = true := by
  have h := c5_schema_error_exactly_on_missing_required
    ⟨["date", "time", "location", "exercise", "count", "weather"], []⟩
  exact ⟨by decide, h.2.1.mpr (by decide), h.2.2.mpr (by decide)⟩

/-! ### Forward-fill as an in-place mutation -/

theorem ffill3_fixpoint :
    ∀ (rows : List RawRow) (pd pl pe : Option RawVal),
      ffill3 pd pl pe rows = rows ↔ noFillGapRows pd pl pe rows = true
  | [], _, _, _ => by simp [ffill3, noFillGapRows]
  | r :: rs, pd, pl, pe => by
    obtain ⟨rd, rt, rl, re, rc⟩ := r
    cases rd <;> cases rl <;> cases re <;>
      simp [ffill3, noFillGapRows, ffillStep, RawRow.mk.injEq, ffill3_fixpoint rs,
        Option.isNone_iff_eq_none, and_assoc]

theorem ffillRows_cons (r : RawRow) (rs : List RawRow) :
    ffillRows (r :: rs) = r :: ffill3 r.date r.location r.exercise rs := by
  obtain ⟨rd, rt, rl, re, rc⟩ := r
  cases rd <;> cases rl <;> cases re <;> simp [ffillRows, ffill3, ffillStep]

/-- C7 amended: the Validator does mutate external state — the forward-fill
assignment writes into the caller's table object — and the caller's table
is left unchanged if and only if forward-fill was a no-op, that is, no
absent `date`/`location`/`exercise` cell lies below a present one. -/
theorem c7_amended_validator_mutates_unless_no_gap :
    ∀ (t t2 : Table), cleanSheetState1 t = some t2 →
      (t2 = t ↔ noFillGapRows none none none t.rows = true) := by
  intro t t2 h
  unfold cleanSheetState1 at h
  split at h
  · obtain ⟨cols, rows⟩ := t
    have ht2 : t2 = ⟨cols, ffillRows rows⟩ := (Option.some.inj h).symm
    subst ht2
    simp only [Table.mk.injEq, true_and]
    exact ffill3_fixpoint rows none none none
  · exact absurd h (by simp)

/-- C7 counterexample: a concrete table with an absent cell below a present
one is visibly changed by the time `clean_exercise_sheet` returns (the
forward-fill assignment mutates the caller's object), and validation
nevertheless returns normally — refuting that the raw table passed in is
unchanged and that the warning is the only observable effect. -/
theorem c7_counterexample_caller_table_changed :
    cleanSheetState1 c7table = some c7mutated ∧ c7mutated ≠ c7table ∧
      (∃ ct, cleanExerciseSheet c7table = .ok ct) := by
  refine ⟨rfl, by decide, ⟨⟨requiredCols,
    [⟨some ⟨2024, 11, 1⟩, some ⟨2024, 11, 1⟩, some (RawVal.strV ("home")),
        some (RawVal.strV ("situps")), 30⟩,
     ⟨some ⟨2024, 11, 1⟩, some ⟨2024, 11, 2⟩, some (RawVal.strV ("home")),
        some (RawVal.strV ("situps")), 20⟩]⟩, rfl⟩⟩

/-- Witness for C7 at the concrete mutated table. -/
theorem c7_witness :
    cleanSheetState1 c7table = some c7mutated ∧
      (c7mutated = c7table ↔ noFillGapRows none none none c7table.rows = true) :=
  ⟨rfl, c7_amended_validator_mutates_unless_no_gap c7table c7mutated rfl⟩

/-! ### Absent values in the first row -/

/-- C9 amended: when the first row has an absent `date`, `location` or
`exercise` cell, forward-fill has no source and the cell persists; but
validation does not then fail at the type-casting step: `location` and
`exercise` are never cast, and the datetime cast turns an absent `date`
into NaT without raising, so a successful validation returns the record
set with the value still absent. -/
theorem c9_amended_absent_first_row_survives :
    (∀ (r : RawRow) (rs : List RawRow),
        ffillRows (r :: rs) = r :: ffill3 r.date r.location r.exercise rs) ∧
    (∀ (t : Table) (r : RawRow) (rs : List RawRow) (ct : CleanTable)
        (r2 : CleanRow) (rs2 : List CleanRow),
        t.rows = r :: rs → cleanExerciseSheet t = .ok ct → ct.rows = r2 :: rs2 →
        (r.date = none → r2.date = none) ∧ (r.location = none → r2.location = none) ∧
          (r.exercise = none → r2.exercise = none)) := by
  refine ⟨ffillRows_cons, ?_⟩
  intro t r rs ct r2 rs2 htr hok hct
  obtain ⟨-, ds, ts, cs, hds, hts, hcs, rfl⟩ := cleanExerciseSheet_ok_elim t ct hok
  unfold castDatetimeColumn at hds hts
  unfold castCountColumn at hcs
  rw [htr, ffillRows_cons, List.map_cons] at hds hts hcs
  rw [htr, ffillRows_cons] at hct
  obtain ⟨d0, ds2, rfl, hf1, -⟩ := optionMapList_cons _ _ _ _ hds
  obtain ⟨t0, ts2, rfl, -, -⟩ := optionMapList_cons _ _ _ _ hts
  obtain ⟨c0, cs2, rfl, -, -⟩ := optionMapList_cons _ _ _ _ hcs
  simp only [buildCleanRows] at hct
  have hr2 : r2 = ⟨d0, t0, r.location, r.exercise, c0⟩ := ((List.cons.inj hct).1).symm
  subst hr2
  refine ⟨?_, fun h => h, fun h => h⟩
  intro hd
  rw [hd] at hf1
  simpa using hf1.symm

/-- C9 counterexample: on the concrete table `t9`, whose first row has an
absent `date`, validation succeeds and returns the record set with the
absent date — it does not fail at the type-casting step as claimed. -/
theorem c9_counterexample_validate_succeeds_with_absent_date :
    t9row0.date = none ∧ t9.rows = t9row0 :: [t9row1] ∧
      cleanExerciseSheet t9 = .ok ct9 ∧ ct9row0.date = none :=
  ⟨rfl, rfl, rfl, rfl⟩

/-- Witness for C9 at the concrete table `t9`. -/
theorem c9_witness :
    t9.rows = t9row0 :: [t9row1] ∧ cleanExerciseSheet t9 = .ok ct9 ∧
      ct9.rows = ct9row0 :: [ct9row1] ∧
      ((t9row0.date = none → ct9row0.date = none) ∧
        (t9row0.location = none → ct9row0.location = none) ∧
        (t9row0.exercise = none → ct9row0.exercise = none)) :=
  ⟨rfl, rfl, rfl,
    c9_amended_absent_first_row_survives.2 t9 t9row0 [t9row1] ct9 ct9row0 [ct9row1] rfl rfl rfl⟩

/-! ### loadMonth never returns an empty record set -/

/-- C10 amended: `import_month` can never succeed with zero records — but
not through the year/month check: a table whose data rows are all empty
loses every column in the `dropna` steps (all columns of a zero-row frame
are entirely empty), so the failure is the required-columns SchemaError,
raised before the year/month check is reached. -/
theorem c10_amended_no_empty_success :
    (∀ (t : Table) (y m : Nat), (∀ r ∈ t.rows, rowAllAbsent r = true) →
        importMonth t y m = .error (.schemaError requiredCols)) ∧
    (∀ (t : Table) (y m : Nat) (ct : CleanTable),
        importMonth t y m = .ok ct → ct.rows ≠ []) := by
  constructor
  · intro t y m hall
    have hrows : t.rows.filter (fun r => !rowAllAbsent r) = [] := by
      rw [List.filter_eq_nil_iff]
      intro r hr
      simp [hall r hr]
    simp only [importMonth, importExerciseSheet, hrows, List.any_nil, List.filter_false]
    rfl
  · intro t y m ct hok
    unfold importMonth at hok
    split at hok
    · exact absurd hok (by simp)
    · rename_i ct2 his
      split at hok
      · exact absurd hok (by simp)
      · obtain rfl : ct2 = ct := Except.ok.inj hok
        simp only [importExerciseSheet] at his
        intro hempty
        have hlen := cleanExerciseSheet_ok_length _ _ his
        rw [hempty] at hlen
        have hr1 : t.rows.filter (fun r => !rowAllAbsent r) = [] :=
          List.length_eq_zero.mp hlen.symm
        rw [hr1] at his
        simp only [List.any_nil, List.filter_false] at his
        have h1 := (cleanExerciseSheet_ok_elim _ _ his).1
        have hchk : checkColumnsExistence ([] : List String) =
            .error (.schemaError requiredCols) := rfl
        exact absurd (hchk.symm.trans h1) (by simp)

/-- C10 counterexample: on the all-empty-rows table `t10` the failure is
the SchemaError of the column check, not the claimed IndexError of the
year/month consistency check (`vals[0]` on an empty array) — `dropna` has
already removed every column, so the year/month check is never reached. -/
theorem c10_counterexample_fails_at_schema_check :
    importMonth t10 2024 11 = .error (.schemaError requiredCols) ∧
      importMonth t10 2024 11 ≠ .error .indexError := by
  refine ⟨rfl, fun h => ?_⟩
  have h2 : Err.schemaError requiredCols = Err.indexError :=
    Except.error.inj ((show importMonth t10 2024 11 =
      .error (.schemaError requiredCols) from rfl).symm.trans h)
  exact absurd h2 (by decide)

/-- Witness for C10 at the concrete all-empty table `t10`. -/
theorem c10_witness :
    (∀ r ∈ t10.rows, rowAllAbsent r = true) ∧
      importMonth t10 2024 11 = .error (.schemaError requiredCols) := by
  exact ⟨by decide, c10_amended_no_empty_success.1 t10 2024 11 (by decide)⟩

/-! ### The year/month consistency check -/

theorem checkYMCol_ok_iff (vals : List (Option Nat)) (expected : Nat) :
    checkYMCol vals expected = .ok () ↔ vals ≠ [] ∧ ∀ v ∈ vals, v = some expected := by
  unfold checkYMCol
  cases h : uniqueList vals with
  | nil =>
    have : vals = [] := (uniqueList_eq_nil_iff vals).mp h
    subst this
    simp
  | cons v rest =>
    dsimp only
    by_cases hc : rest ≠ [] ∨ v ≠ some expected
    · rw [if_pos hc]
      constructor
      · intro habs
        exact absurd habs (by simp)
      · rintro ⟨hne, hall⟩
        exfalso
        rw [uniqueList_const (some expected) vals hne hall] at h
        rcases List.cons.inj h with ⟨hv, hrest⟩
        rcases hc with hc | hc
        · exact hc hrest.symm
        · exact hc hv.symm
    · rw [if_neg hc]
      push_neg at hc
      obtain ⟨hrest, hv⟩ := hc
      subst hrest hv
      constructor
      · intro _
        have hne : vals ≠ [] := by
          intro hnil
          rw [(uniqueList_eq_nil_iff vals).mpr hnil] at h
          exact absurd h (by simp)
        refine ⟨hne, fun x hx => ?_⟩
        have : x ∈ uniqueList vals := (mem_uniqueList x vals).mpr hx
        rw [h] at this
        exact List.mem_singleton.mp this
      · intro _
        rfl

theorem checkYMCol_cases (vals : List (Option Nat)) (expected : Nat) (h : vals ≠ []) :
    checkYMCol vals expected = .ok () ∨ checkYMCol vals expected = .error .monthMismatch := by
  unfold checkYMCol
  cases hu : uniqueList vals with
  | nil => exact absurd ((uniqueList_eq_nil_iff vals).mp hu) h
  | cons v rest =>
    dsimp only
    by_cases hc : rest ≠ [] ∨ v ≠ some expected
    · rw [if_pos hc]
      exact Or.inr rfl
    · rw [if_neg hc]
      exact Or.inl rfl

theorem checkMonth_eq_ok_iff_parts (rows : List CleanRow) (y m : Nat) :
    checkMonth rows y m = .ok () ↔
      (checkYMCol (rows.map (fun r => r.date.map YMD.year)) y = .ok () ∧
       checkYMCol (rows.map (fun r => r.time.map YMD.year)) y = .ok () ∧
       checkYMCol (rows.map (fun r => r.date.map YMD.month)) m = .ok () ∧
       checkYMCol (rows.map (fun r => r.time.map YMD.month)) m = .ok ()) := by
  unfold checkMonth
  cases h1 : checkYMCol (rows.map (fun r => r.date.map YMD.year)) y with
  | error e => simp
  | ok u =>
    obtain ⟨⟩ := u
    cases h2 : checkYMCol (rows.map (fun r => r.time.map YMD.year)) y with
    | error e => simp
    | ok u =>
      obtain ⟨⟩ := u
      cases h3 : checkYMCol (rows.map (fun r => r.date.map YMD.month)) m with
      | error e => simp
      | ok u =>
        obtain ⟨⟩ := u
        simp

theorem checkMonth_ok_iff (rows : List CleanRow) (y m : Nat) :
    checkMonth rows y m = .ok () ↔ rows ≠ [] ∧ ∀ r ∈ rows, recordInMonth r y m := by
  rw [checkMonth_eq_ok_iff_parts, checkYMCol_ok_iff, checkYMCol_ok_iff, checkYMCol_ok_iff,
    checkYMCol_ok_iff]
  unfold recordInMonth
  constructor
  · rintro ⟨⟨h1a, h1⟩, ⟨-, h2⟩, ⟨-, h3⟩, ⟨-, h4⟩⟩
    refine ⟨by simpa using h1a, fun r hr => ⟨?_, ?_, ?_, ?_⟩⟩
    · exact h1 _ (List.mem_map.mpr ⟨r, hr, rfl⟩)
    · exact h3 _ (List.mem_map.mpr ⟨r, hr, rfl⟩)
    · exact h2 _ (List.mem_map.mpr ⟨r, hr, rfl⟩)
    · exact h4 _ (List.mem_map.mpr ⟨r, hr, rfl⟩)
  · rintro ⟨hne, hall⟩
    have hne2 : ∀ f : CleanRow → Option Nat, rows.map f ≠ [] :=
      fun f h => hne (List.map_eq_nil_iff.mp h)
    refine ⟨⟨hne2 _, ?_⟩, ⟨hne2 _, ?_⟩, ⟨hne2 _, ?_⟩, ⟨hne2 _, ?_⟩⟩
    · rintro v hv
      rcases List.mem_map.mp hv with ⟨r, hr, rfl⟩
      exact (hall r hr).1
    · rintro v hv
      rcases List.mem_map.mp hv with ⟨r, hr, rfl⟩
      exact (hall r hr).2.2.1
    · rintro v hv
      rcases List.mem_map.mp hv with ⟨r, hr, rfl⟩
      exact (hall r hr).2.1
    · rintro v hv
      rcases List.mem_map.mp hv with ⟨r, hr, rfl⟩
      exact (hall r hr).2.2.2

theorem checkMonth_cases (rows : List CleanRow) (y m : Nat) (hne : rows ≠ []) :
    checkMonth rows y m = .ok () ∨ checkMonth rows y m = .error .monthMismatch := by
  have hne2 : ∀ f : CleanRow → Option Nat, rows.map f ≠ [] :=
    fun f h => hne (List.map_eq_nil_iff.mp h)
  unfold checkMonth
  rcases checkYMCol_cases (rows.map (fun r => r.date.map YMD.year)) y (hne2 _) with h1 | h1 <;>
    rw [h1]
  · rcases checkYMCol_cases (rows.map (fun r => r.time.map YMD.year)) y (hne2 _) with h2 | h2 <;>
      rw [h2]
    · rcases checkYMCol_cases (rows.map (fun r => r.date.map YMD.month)) m (hne2 _) with h3 | h3 <;>
        rw [h3]
      · rcases checkYMCol_cases (rows.map (fun r => r.time.map YMD.month)) m (hne2 _) with h4 | h4 <;>
          rw [h4]
        · exact Or.inl rfl
        · exact Or.inr rfl
      · exact Or.inr rfl
    · exact Or.inr rfl
  · exact Or.inr rfl

/-- C4: the month-consistency check raises MonthMismatchError whenever
some record's `date` or `time` lies outside the requested (year, month),
however many records are correct; and `import_month` succeeds only when
every returned record's `date` and `time` carry exactly the requested
year and month. -/
theorem c4_month_mismatch_rejection :
    (∀ (rows : List CleanRow) (y m : Nat),
        (∃ r ∈ rows, ¬ recordInMonth r y m) →
        checkMonth rows y m = .error .monthMismatch) ∧
    (∀ (t : Table) (y m : Nat) (ct : CleanTable),
        importMonth t y m = .ok ct → ∀ r ∈ ct.rows, recordInMonth r y m) := by
  constructor
  · rintro rows y m ⟨r, hr, hbad⟩
    have hne : rows ≠ [] := by
      rintro rfl
      exact absurd hr (List.not_mem_nil r)
    rcases checkMonth_cases rows y m hne with hok | herr
    · exact absurd (((checkMonth_ok_iff rows y m).mp hok).2 r hr) hbad
    · exact herr
  · intro t y m ct hok
    unfold importMonth at hok
    split at hok
    · exact absurd hok (by simp)
    · rename_i ct2 his
      split at hok
      · exact absurd hok (by simp)
      · rename_i u hcm
        obtain ⟨⟩ := u
        obtain rfl : ct2 = ct := Except.ok.inj hok
        exact ((checkMonth_ok_iff _ y m).mp hcm).2

/-- Witness for C4 at the concrete record set `c4rows`, whose second
record's `time` is in December while November is requested. -/
theorem c4_witness :
    (∃ r ∈ c4rows, ¬ recordInMonth r 2024 11) ∧
      checkMonth c4rows 2024 11 = .error .monthMismatch :=
  ⟨by decide, c4_month_mismatch_rejection.1 c4rows 2024 11 (by decide)⟩

/-! ### The projection paces -/

/-- C6: the projection's two per-remaining-day paces are, as rationals,
exactly the quotients the specification states — (a) no-more-today:
(goalTotal - monthTotalSoFar) / (daysInMonth - currentDay), and (b)
as-of-this-morning: (goalTotal - (monthTotalSoFar - todayTotal)) /
(daysInMonth - (currentDay - 1)) — and at the concrete instance
goalTotal = 300, monthTotalSoFar = 100, todayTotal = 10, daysInMonth = 30,
currentDay = 10, both equal exactly 10. -/
theorem c6_projection_paces :
    (∀ (t : Table) (ex : String) (goalTotal : Int) (today : YMD) (p : ℚ × ℚ)
        (df : CleanTable),
        importMonth t today.year today.month = .ok df →
        exerciseProjection t ex goalTotal today = .ok p →
        p.1 = paceAsOfMorning goalTotal (sumMonthFor df.rows ex)
            (sumDayFor df.rows ex today.day) (daysInMonth today.year today.month) today.day ∧
        p.2 = paceNoMoreToday goalTotal (sumMonthFor df.rows ex)
            (daysInMonth today.year today.month) today.day) ∧
    exerciseProjection c6table "pushups" 300 ⟨2024, 11, 10⟩ = .ok (10, 10) := by
  constructor
  · intro t ex goalTotal today p df him hok
    simp only [exerciseProjection, him] at hok
    split at hok
    · split at hok
      · exact absurd hok (by simp)
      · have hp := Except.ok.inj hok
        exact ⟨(congrArg Prod.fst hp).symm, (congrArg Prod.snd hp).symm⟩
    · exact absurd hok (by simp)
  · have h0 : exerciseProjection c6table "pushups" 300 ⟨2024, 11, 10⟩ =
        .ok (((210 : Int) : ℚ) / ((21 : Int) : ℚ), ((200 : Int) : ℚ) / ((20 : Int) : ℚ)) := rfl
    rw [h0]
    norm_num

/-- Witness for C6 at the concrete table `c6table` with the wall clock at
2024-11-10. -/
theorem c6_witness :
    importMonth c6table 2024 11 = .ok c6clean ∧
      exerciseProjection c6table "pushups" 300 ⟨2024, 11, 10⟩ =
        .ok (((210 : Int) : ℚ) / ((21 : Int) : ℚ), ((200 : Int) : ℚ) / ((20 : Int) : ℚ)) ∧
      (((210 : Int) : ℚ) / ((21 : Int) : ℚ), ((200 : Int) : ℚ) / ((20 : Int) : ℚ)).1 =
        paceAsOfMorning 300 (sumMonthFor c6clean.rows "pushups")
          (sumDayFor c6clean.rows "pushups" 10) (daysInMonth 2024 11) 10 := by
  refine ⟨rfl, rfl, ?_⟩
  exact (c6_projection_paces.1 c6table "pushups" 300 ⟨2024, 11, 10⟩
    (((210 : Int) : ℚ) / ((21 : Int) : ℚ), ((200 : Int) : ℚ) / ((20 : Int) : ℚ))
    c6clean rfl rfl).1

/-! ### Wall-clock dependence of the stratifier -/

theorem stratifyCore_eq_go (rows : List CleanRow) (ex : String) (today : YMD) (y m : Nat)
    (hne : rows ≠ []) (hym : ∀ r ∈ rows, ∃ d, r.date = some ⟨y, m, d⟩) :
    stratifyCore rows ex today = stratifyGo rows ex today (some y) (some m) := by
  have hy : uniqueList (rows.map (fun r => r.date.map YMD.year)) = [some y] := by
    apply uniqueList_const
    · exact fun h => hne (List.map_eq_nil_iff.mp h)
    · intro x hx
      rcases List.mem_map.mp hx with ⟨r, hr, rfl⟩
      rcases hym r hr with ⟨d, hd⟩
      rw [hd]
      rfl
  have hm : uniqueList (rows.map (fun r => r.date.map YMD.month)) = [some m] := by
    apply uniqueList_const
    · exact fun h => hne (List.map_eq_nil_iff.mp h)
    · intro x hx
      rcases List.mem_map.mp hx with ⟨r, hr, rfl⟩
      rcases hym r hr with ⟨d, hd⟩
      rw [hd]
      rfl
  unfold stratifyCore
  rw [hy, hm]

theorem dayRangeFor_not_current (y m : Nat) (t : YMD) (h : m ≠ t.month ∨ y ≠ t.year) :
    dayRangeFor y m t = daysInMonth y m := by
  unfold dayRangeFor
  rw [if_neg]
  rintro ⟨h1, h2⟩
  rcases h with h | h
  · exact h h1
  · exact h h2

theorem stratifyGo_not_current_eq (rows : List CleanRow) (ex : String) (t1 t2 : YMD)
    (y m : Nat) (h1 : m ≠ t1.month ∨ y ≠ t1.year) (h2 : m ≠ t2.month ∨ y ≠ t2.year) :
    stratifyGo rows ex t1 (some y) (some m) = stratifyGo rows ex t2 (some y) (some m) := by
  simp only [stratifyGo, dayRangeFor_not_current y m t1 h1, dayRangeFor_not_current y m t2 h2]

/-- C8 amended: the stratifier's output is NOT a function of the record
set and exercise alone — `day_range` is re-derived internally from the
wall clock — but the wall clock enters only through the current-month
test: for a record set of a month that is current under neither clock
reading, two runs under different wall clocks agree. -/
theorem c8_amended_day_range_from_wall_clock :
    ∀ (rows : List CleanRow) (ex : String) (t1 t2 : YMD) (y m : Nat),
      rows ≠ [] → (∀ r ∈ rows, ∃ d, r.date = some ⟨y, m, d⟩) →
      (m ≠ t1.month ∨ y ≠ t1.year) → (m ≠ t2.month ∨ y ≠ t2.year) →
      stratifyCore rows ex t1 = stratifyCore rows ex t2 := by
  intro rows ex t1 t2 y m hne hym hc1 hc2
  rw [stratifyCore_eq_go rows ex t1 y m hne hym, stratifyCore_eq_go rows ex t2 y m hne hym]
  exact stratifyGo_not_current_eq rows ex t1 t2 y m hc1 hc2

/-- C8 counterexample: identical explicit inputs (the table `c8table` and
exercise squats), two wall-clock readings — 2024-11-02, when the data's
month is current (`day_range` = 2), and 2024-12-01, when it is not
(`day_range` = 30) — produce different outputs, refuting that the output
is determined by the explicit inputs with the day range supplied by the
caller. -/
theorem c8_counterexample_output_depends_on_wall_clock :
    stratifyExerciseMonth c8table "squats" ⟨2024, 11, 2⟩ ≠
      stratifyExerciseMonth c8table "squats" ⟨2024, 12, 1⟩ := by
  intro h
  have h2 := congrArg (Except.map (fun o : List (List (YMD × Int)) => o.map List.length)) h
  have e1 : Except.map (fun o : List (List (YMD × Int)) => o.map List.length)
      (stratifyExerciseMonth c8table "squats" ⟨2024, 11, 2⟩) = .ok [2] := rfl
  have e2 : Except.map (fun o : List (List (YMD × Int)) => o.map List.length)
      (stratifyExerciseMonth c8table "squats" ⟨2024, 12, 1⟩) = .ok [30] := rfl
  rw [e1, e2] at h2
  exact absurd (Except.ok.inj h2) (by decide)

/-- Witness for C8 at the concrete cleaned record set `c8wrows` and two
wall-clock readings under which November 2024 is not current. -/
theorem c8_witness :
    c8wrows ≠ [] ∧ (∀ r ∈ c8wrows, ∃ d, r.date = some ⟨2024, 11, d⟩) ∧
      ((11 : Nat) ≠ (⟨2024, 12, 5⟩ : YMD).month ∨ (2024 : Nat) ≠ (⟨2024, 12, 5⟩ : YMD).year) ∧
      stratifyCore c8wrows "squats" ⟨2024, 12, 5⟩ =
        stratifyCore c8wrows "squats" ⟨2025, 1, 7⟩ := by
  have hym : ∀ r ∈ c8wrows, ∃ d, r.date = some ⟨2024, 11, d⟩ := by
    intro r hr
    simp only [c8wrows, List.mem_singleton] at hr
    subst hr
    exact ⟨1, rfl⟩
  refine ⟨by simp [c8wrows], hym, by decide, ?_⟩
  exact c8_amended_day_range_from_wall_clock c8wrows "squats" ⟨2024, 12, 5⟩ ⟨2025, 1, 7⟩
    2024 11 (by simp [c8wrows]) hym (by decide) (by decide)

/-! ### Arithmetic support for the stratifier invariant -/

theorem le_foldl_max_init : ∀ (l : List Nat) (b : Nat), b ≤ l.foldl Nat.max b
  | [], b => Nat.le_refl b
  | a :: l, b => Nat.le_trans (Nat.le_max_left b a) (le_foldl_max_init l (Nat.max b a))

theorem le_foldl_max_mem : ∀ (l : List Nat) (b a : Nat), a ∈ l → a ≤ l.foldl Nat.max b
  | [], _, a, h => absurd h (List.not_mem_nil a)
  | x :: l, b, a, h => by
    rcases List.mem_cons.mp h with rfl | h2
    · exact Nat.le_trans (Nat.le_max_right b a) (le_foldl_max_init l (Nat.max b a))
    · exact le_foldl_max_mem l (Nat.max b x) a h2

theorem map_range_getD_eq_self (l : List Int) :
    (List.range l.length).map (fun n => l.getD n 0) = l := by
  apply List.ext_get
  · simp
  · intro n h1 h2
    simp only [List.get_eq_getElem, List.getElem_map, List.getElem_range,
      List.getD_eq_getElem?_getD, List.getElem?_eq_getElem h2, Option.getD_some]

theorem sum_range_getD (l : List Int) :
    ∀ (k : Nat), ((List.range (l.length + k)).map (fun n => l.getD n 0)).sum = l.sum
  | 0 => by rw [Nat.add_zero, map_range_getD_eq_self]
  | k + 1 => by
    have hsplit : l.length + (k + 1) = (l.length + k) + 1 := rfl
    have hzero : l.getD (l.length + k) 0 = 0 := by
      rw [List.getD_eq_getElem?_getD, List.getElem?_eq_none (by omega)]
      rfl
    rw [hsplit, List.range_succ, List.map_append, List.sum_append, sum_range_getD l k]
    simp only [List.map_cons, List.map_nil, List.sum_cons, List.sum_nil]
    rw [hzero, add_zero, add_zero]

theorem sum_range_getD_of_le (l : List Int) (N : Nat) (h : l.length ≤ N) :
    ((List.range N).map (fun n => l.getD n 0)).sum = l.sum := by
  obtain ⟨k, rfl⟩ : ∃ k, N = l.length + k := ⟨N - l.length, by omega⟩
  exact sum_range_getD l k

theorem seriesEntry_snd_eq_getD (filtered : List CleanRow) (key : YMD) (n : Nat) :
    (seriesEntry filtered key n).2 = ((groupFor filtered key).map CleanRow.count).getD n 0 := by
  unfold seriesEntry
  by_cases h : n < (groupFor filtered key).length
  · rw [dif_pos h]
    have h2 : n < ((groupFor filtered key).map CleanRow.count).length := by
      simpa using h
    rw [List.getD_eq_getElem?_getD, List.getElem?_eq_getElem h2, Option.getD_some,
      List.getElem_map]
    rfl
  · rw [dif_neg h]
    rw [List.getD_eq_getElem?_getD, List.getElem?_eq_none (by simpa using h)]
    rfl

theorem groupFor_map_count_sum (rows : List CleanRow) (ex : String) (key : YMD) :
    ((groupFor (filteredFor rows ex) key).map CleanRow.count).sum = dayTotal rows ex key := by
  have hperm := List.perm_insertionSort countDesc
    ((filteredFor rows ex).filter (fun r => decide (r.date = some key)))
  have hsum := (hperm.map CleanRow.count).sum_eq
  rw [groupFor, sortValuesCountDesc, hsum]
  unfold dayTotal filteredFor
  rw [List.filter_filter]

/-- C1: on every successful run of the stratifier over a single-month
record set containing the exercise, every returned series has length
exactly the day range (so all series have identical length), and at every
day index in the range the sum of the series values equals the total
count logged for the exercise on that day. -/
theorem c1_stratifier_invariant :
    ∀ (rows : List CleanRow) (ex : String) (today : YMD) (y m : Nat)
      (out : List (List (YMD × Int))),
      (∀ r ∈ rows, ∃ d, r.date = some ⟨y, m, d⟩) →
      stratifyCore rows ex today = .ok out →
      (∀ s ∈ out, s.length = dayRangeFor y m today) ∧
      (∀ d, 1 ≤ d → d ≤ dayRangeFor y m today →
        (out.map (fun s => seriesValueAt s d)).sum = dayTotal rows ex ⟨y, m, d⟩) := by
  intro rows ex today y m out hym hok
  have hne : rows ≠ [] := by
    rintro rfl
    rw [show stratifyCore [] ex today = .error .multipleMonths from rfl] at hok
    exact absurd hok (by simp)
  rw [stratifyCore_eq_go rows ex today y m hne hym] at hok
  simp only [stratifyGo] at hok
  split at hok
  case isFalse => exact absurd hok (by simp)
  case isTrue hmem =>
    split at hok
    case h_1 heq => exact absurd hok (by simp)
    case h_2 n0 ns heq =>
      have hout := Except.ok.inj hok
      subst hout
      constructor
      · intro s hs
        rcases List.mem_map.mp hs with ⟨n, hn, rfl⟩
        simp [List.length_map, List.length_range']
      · intro d hd1 hd2
        rw [List.map_map]
        have hone : 1 + 1 * (d - 1) = d := by omega
        have hentry : ∀ n : Nat,
            ((fun s => seriesValueAt s d) ∘ fun n =>
              (List.range' 1 (dayRangeFor y m today)).map
                (fun dd => seriesEntry (filteredFor rows ex) ⟨y, m, dd⟩ n)) n =
            ((groupFor (filteredFor rows ex) ⟨y, m, d⟩).map CleanRow.count).getD n 0 := by
          intro n
          simp only [Function.comp]
          unfold seriesValueAt
          rw [List.get?_eq_getElem?, List.getElem?_map,
            List.getElem?_range' 1 1 (show d - 1 < dayRangeFor y m today by omega)]
          simp only [Option.map_some', Option.getD_some]
          rw [hone]
          exact seriesEntry_snd_eq_getD (filteredFor rows ex) ⟨y, m, d⟩ n
        rw [List.map_congr_left (fun n _ => hentry n)]
        have hlen : ((groupFor (filteredFor rows ex) ⟨y, m, d⟩).map CleanRow.count).length ≤
            ns.foldl Nat.max n0 := by
          by_cases hg :
              (filteredFor rows ex).filter (fun r => decide (r.date = some ⟨y, m, d⟩)) = []
          · have hzero : (groupFor (filteredFor rows ex) ⟨y, m, d⟩).length = 0 := by
              rw [groupFor, sortValuesCountDesc, (List.perm_insertionSort countDesc _).length_eq,
                hg]
              rfl
            simp [hzero]
          · have hkey : (⟨y, m, d⟩ : YMD) ∈
                uniqueList ((filteredFor rows ex).filterMap (fun r => r.date)) := by
              rw [mem_uniqueList, List.mem_filterMap]
              rcases List.exists_mem_of_ne_nil _ hg with ⟨r, hr⟩
              rcases List.mem_filter.mp hr with ⟨hr1, hr2⟩
              exact ⟨r, hr1, of_decide_eq_true hr2⟩
            have hmem2 : (groupFor (filteredFor rows ex) ⟨y, m, d⟩).length ∈
                (uniqueList ((filteredFor rows ex).filterMap (fun r => r.date))).map
                  (fun dd => (groupFor (filteredFor rows ex) dd).length) :=
              List.mem_map.mpr ⟨⟨y, m, d⟩, hkey, rfl⟩
            rw [heq] at hmem2
            have hle : (groupFor (filteredFor rows ex) ⟨y, m, d⟩).length ≤
                ns.foldl Nat.max n0 := by
              rcases List.mem_cons.mp hmem2 with h | h
              · rw [h]
                exact le_foldl_max_init ns n0
              · exact le_foldl_max_mem ns n0 _ h
            simpa using hle
        rw [sum_range_getD_of_le _ _ hlen, groupFor_map_count_sum]

/-- Witness for C1 at the concrete record set `c1wrows` with the wall
clock at 2024-11-02 (day range 2). -/
theorem c1_witness :
    (∀ r ∈ c1wrows, ∃ d, r.date = some ⟨2024, 11, d⟩) ∧
      stratifyCore c1wrows "pushups" ⟨2024, 11, 2⟩ = .ok c1wout ∧
      ((∀ s ∈ c1wout, s.length = dayRangeFor 2024 11 ⟨2024, 11, 2⟩) ∧
        (∀ d, 1 ≤ d → d ≤ dayRangeFor 2024 11 ⟨2024, 11, 2⟩ →
          (c1wout.map (fun s => seriesValueAt s d)).sum =
            dayTotal c1wrows "pushups" ⟨2024, 11, d⟩)) := by
  have hym : ∀ r ∈ c1wrows, ∃ d, r.date = some ⟨2024, 11, d⟩ := by
    intro r hr
    simp only [c1wrows, List.mem_cons, List.not_mem_nil, or_false] at hr
    rcases hr with rfl | rfl | rfl | rfl
    · exact ⟨1, rfl⟩
    · exact ⟨1, rfl⟩
    · exact ⟨1, rfl⟩
    · exact ⟨2, rfl⟩
  exact ⟨hym, rfl,
    c1_stratifier_invariant c1wrows "pushups" ⟨2024, 11, 2⟩ 2024 11 c1wout hym rfl⟩

/-- C2: end-to-end on the concrete table — pushups logged as 3 sets of
(10, 8, 12) on day 1 and 1 set of (5) on day 2 of November 2024, with the
wall clock at 2024-11-02 (so the derived day range is 2) — the stratifier
returns exactly the 3 series [12, 5], [10, 0], [8, 0]: each day's sets in
descending rank order, with 0 filled in for day 2's missing second and
third sets. -/
theorem c2_end_to_end_pushups :
    stratifyExerciseMonth c2table "pushups" ⟨2024, 11, 2⟩ =
      .ok [[(⟨2024, 11, 1⟩, 12), (⟨2024, 11, 2⟩, 5)],
           [(⟨2024, 11, 1⟩, 10), (⟨2024, 11, 2⟩, 0)],
           [(⟨2024, 11, 1⟩, 8), (⟨2024, 11, 2⟩, 0)]] := rfl
